import Mathlib

/-!
Shallow embedding of the OSC 66 "text sizing" encoders of the opentui
repository.  Two implementations are embedded:

* the TypeScript encoder family in `packages/core/src/ansi.ts`
  (`textSizing`, `scaledText`, `fractionalText`, `textSizingWithWidth`,
  `explicitWidth`), and
* the Zig encoder and probe-query constants in
  `packages/core/src/zig/ansi.zig` (`textSizingOutput`,
  `scaledTextOutput`, `fractionalTextOutput`, `textSizingWithWidthOutput`,
  `explicitWidthOutput`, `explicitWidthQuery`, `scaledTextQuery`,
  `cursorPositionRequest`).

Strings are modelled by Lean `String`; JavaScript numbers holding the
(integer-valued) sizing parameters and Zig `u8` fields are both modelled
by `Nat`.  The optional TypeScript fields are modelled by their documented
default values (scale 1, width 0, numerator 0, denominator 0, top, left);
the JavaScript truthiness guards `params.x && ...` are translated
literally as `x ≠ 0 ∧ ...` (for a string-valued field every inhabitant of
the alignment type is truthy, so the guard reduces to the comparison).
-/

/-- Vertical alignment for the text sizing protocol
(`ansi.ts` line 4, `ansi.zig` lines 12-16 with codes top=0 bottom=1 center=2). -/
inductive VerticalAlign : Type
  | top
  | bottom
  | center
  deriving DecidableEq, Repr

/-- Horizontal alignment for the text sizing protocol
(`ansi.ts` line 9, `ansi.zig` lines 19-23 with codes left=0 right=1 center=2). -/
inductive HorizontalAlign : Type
  | left
  | right
  | center
  deriving DecidableEq, Repr

/-- Parameters for the Kitty Text Sizing Protocol (OSC 66)
(`TextSizingParams` in `ansi.ts` lines 14-27 and `ansi.zig` lines 26-39).
Defaults are the documented ones: scale 1, width 0, numerator 0,
denominator 0, top, left. -/
structure TextSizingParams where
  scale : Nat := 1
  width : Nat := 0
  numerator : Nat := 0
  denominator : Nat := 0
  verticalAlign : VerticalAlign := VerticalAlign.top
  horizontalAlign : HorizontalAlign := HorizontalAlign.left
  deriving DecidableEq, Repr

/-- The `parts` list built by the TypeScript `ANSI.textSizing`
(`ansi.ts` lines 67-94): one field group per contributing parameter,
evaluated in the fixed order scale, width, fractional pair, vertical
alignment, horizontal alignment.  Each JavaScript guard
`params.x && cond` is rendered as `x ≠ 0 ∧ cond` (truthiness). -/
def textSizingParts (params : TextSizingParams) : List String :=
  (if params.scale ≠ 0 ∧ params.scale > 1
    then ["s=" ++ toString params.scale] else []) ++
  (if params.width ≠ 0 ∧ params.width > 0
    then ["w=" ++ toString params.width] else []) ++
  (if params.numerator ≠ 0 ∧ params.denominator ≠ 0 ∧
      params.denominator > params.numerator
    then ["n=" ++ toString params.numerator ++ ":d=" ++
      toString params.denominator] else []) ++
  (if params.verticalAlign ≠ VerticalAlign.top
    then ["v=" ++ toString
      (if params.verticalAlign = VerticalAlign.bottom then 1 else 2)] else []) ++
  (if params.horizontalAlign ≠ HorizontalAlign.left
    then ["h=" ++ toString
      (if params.horizontalAlign = HorizontalAlign.right then 1 else 2)] else [])

/-- The TypeScript general encoder `ANSI.textSizing` (`ansi.ts` lines 66-99).
Note the literal translation of line 97:
`parts.length > 0 ? parts.join(":") + ";" : ";"` — the joined field-group
string is followed, not preceded, by a semicolon. -/
def textSizing (params : TextSizingParams) (text : String) : String :=
  let parts := textSizingParts params
  let paramsStr := if parts.length > 0
    then String.intercalate ":" parts ++ ";" else ";"
  "\x1b]66" ++ paramsStr ++ text ++ "\x1b\\"

/-- The TypeScript convenience encoder `ANSI.scaledText` (`ansi.ts` lines 111-113). -/
def scaledText (scale : Nat) (text : String) : String :=
  "\x1b]66;s=" ++ toString scale ++ ";" ++ text ++ "\x1b\\"

/-- The TypeScript convenience encoder `ANSI.fractionalText` (`ansi.ts` lines 127-129). -/
def fractionalText (numerator denominator : Nat) (text : String) : String :=
  "\x1b]66;n=" ++ toString numerator ++ ":d=" ++ toString denominator ++
    ";" ++ text ++ "\x1b\\"

/-- The TypeScript convenience encoder `ANSI.textSizingWithWidth`
(`ansi.ts` lines 143-145). -/
def textSizingWithWidth (scale width : Nat) (text : String) : String :=
  "\x1b]66;s=" ++ toString scale ++ ":w=" ++ toString width ++
    ";" ++ text ++ "\x1b\\"

/-- The TypeScript convenience encoder `ANSI.explicitWidth` (`ansi.ts` lines 157-159). -/
def explicitWidth (width : Nat) (text : String) : String :=
  "\x1b]66;w=" ++ toString width ++ ";" ++ text ++ "\x1b\\"

namespace Zig

/-- `@intFromEnum` on `VerticalAlign` (`ansi.zig` lines 12-16). -/
def verticalCode : VerticalAlign → Nat
  | VerticalAlign.top => 0
  | VerticalAlign.bottom => 1
  | VerticalAlign.center => 2

/-- `@intFromEnum` on `HorizontalAlign` (`ansi.zig` lines 19-23). -/
def horizontalCode : HorizontalAlign → Nat
  | HorizontalAlign.left => 0
  | HorizontalAlign.right => 1
  | HorizontalAlign.center => 2

/-- The Zig general encoder `ANSI.textSizingOutput` (`ansi.zig` lines 99-163),
embedded as explicit state passing of the pair
(bytes written so far, `needs_separator`). -/
def textSizingOutput (params : TextSizingParams) (text : String) : String :=
  let st0 : String × Bool := ("\x1b]66", false)
  let st1 := if params.scale > 1
    then (st0.1 ++ ";s=" ++ toString params.scale, true) else st0
  let st2 := if params.width > 0
    then (st1.1 ++ (if st1.2 then ":" else ";") ++ "w=" ++
      toString params.width, true) else st1
  let st3 := if params.numerator > 0 ∧ params.denominator > params.numerator
    then (st2.1 ++ (if st2.2 then ":" else ";") ++ "n=" ++
      toString params.numerator ++ ":d=" ++ toString params.denominator, true)
    else st2
  let st4 := if params.verticalAlign ≠ VerticalAlign.top
    then (st3.1 ++ (if st3.2 then ":" else ";") ++ "v=" ++
      toString (verticalCode params.verticalAlign), true) else st3
  let st5 := if params.horizontalAlign ≠ HorizontalAlign.left
    then (st4.1 ++ (if st4.2 then ":" else ";") ++ "h=" ++
      toString (horizontalCode params.horizontalAlign), true) else st4
  st5.1 ++ ";" ++ text ++ "\x1b\\"

/-- The Zig convenience encoder `ANSI.scaledTextOutput` (`ansi.zig` lines 166-168). -/
def scaledTextOutput (scale : Nat) (text : String) : String :=
  "\x1b]66;s=" ++ toString scale ++ ";" ++ text ++ "\x1b\\"

/-- The Zig convenience encoder `ANSI.fractionalTextOutput` (`ansi.zig` lines 171-173). -/
def fractionalTextOutput (numerator denominator : Nat) (text : String) : String :=
  "\x1b]66;n=" ++ toString numerator ++ ":d=" ++ toString denominator ++
    ";" ++ text ++ "\x1b\\"

/-- The Zig convenience encoder `ANSI.textSizingWithWidthOutput`
(`ansi.zig` lines 176-178). -/
def textSizingWithWidthOutput (scale width : Nat) (text : String) : String :=
  "\x1b]66;s=" ++ toString scale ++ ":w=" ++ toString width ++
    ";" ++ text ++ "\x1b\\"

/-- The Zig encoder `ANSI.explicitWidthOutput` (`ansi.zig` lines 87-89). -/
def explicitWidthOutput (width : Nat) (text : String) : String :=
  "\x1b]66;w=" ++ toString width ++ ";" ++ text ++ "\x1b\\"

/-- `ANSI.cursorPositionRequest` (`ansi.zig` line 212). -/
def cursorPositionRequest : String := "\x1b[6n"

/-- `ANSI.explicitWidthQuery` (`ansi.zig` line 213). -/
def explicitWidthQuery : String := "\x1b]66;w=1; \x1b\\"

/-- `ANSI.scaledTextQuery` (`ansi.zig` line 214). -/
def scaledTextQuery : String := "\x1b]66;s=2; \x1b\\"

end Zig

example : textSizing {} "hi" = "\x1b]66;hi\x1b\\" := by decide
example : textSizing { scale := 2 } "Hello" = "\x1b]66s=2;Hello\x1b\\" := by decide
example : Zig.textSizingOutput { scale := 2 } "Hello" = "\x1b]66;s=2;Hello\x1b\\" := by decide
example : Zig.textSizingOutput {} "hi" = "\x1b]66;hi\x1b\\" := by decide
example : Zig.textSizingOutput { width := 1 } " " = Zig.explicitWidthQuery := by decide
example : ("s=" ++ toString (5 : Nat)).data = 's' :: '=' :: (toString (5 : Nat)).data := rfl

/-! Helper lemmas about list membership and string head characters, used to
characterise which field groups occur in `textSizingParts`. -/

lemma mem_ite_singleton {α : Type} (c : Prop) [Decidable c] (a b : α) :
    (a ∈ if c then [b] else []) ↔ c ∧ a = b := by
  split <;> simp_all

lemma head_ne_aux {a b : Char} (hab : a ≠ b) {p q : String} {xs ys : List Char}
    (hp : p.data = a :: xs) (hq : q.data = b :: ys) : p ≠ q := by
  intro h
  rw [h, hq] at hp
  exact hab ((List.cons_eq_cons.mp hp).1.symm)

lemma sublist_ite_singleton {α : Type} (c : Prop) [Decidable c] (b : α) :
    (if c then [b] else []).Sublist [b] := by
  split
  · exact List.Sublist.refl _
  · exact List.nil_sublist _

lemma mem_textSizingParts_iff (p : TextSizingParams) (g : String) :
    g ∈ textSizingParts p ↔
      ((p.scale ≠ 0 ∧ p.scale > 1) ∧ g = "s=" ++ toString p.scale) ∨
      ((p.width ≠ 0 ∧ p.width > 0) ∧ g = "w=" ++ toString p.width) ∨
      ((p.numerator ≠ 0 ∧ p.denominator ≠ 0 ∧
          p.denominator > p.numerator) ∧
        g = "n=" ++ toString p.numerator ++ ":d=" ++ toString p.denominator) ∨
      (p.verticalAlign ≠ VerticalAlign.top ∧
        g = "v=" ++ toString
          (if p.verticalAlign = VerticalAlign.bottom then 1 else 2)) ∨
      (p.horizontalAlign ≠ HorizontalAlign.left ∧
        g = "h=" ++ toString
          (if p.horizontalAlign = HorizontalAlign.right then 1 else 2)) := by
  simp only [textSizingParts, List.mem_append, mem_ite_singleton, or_assoc]

example : ("s=" ++ toString (5 : Nat)) ≠ ("w=" ++ toString (3 : Nat)) :=
  head_ne_aux (by decide) rfl rfl
example (x y : String) : ("s=" ++ x) ≠ ("w=" ++ y) :=
  head_ne_aux (by decide) rfl rfl
example (a b : String) (x : String) :
    ("n=" ++ a ++ ":d=" ++ b) ≠ ("v=" ++ x) :=
  head_ne_aux (by decide) rfl rfl

/-- Claim C1: the claim asserts the canonical shape
`ESC ] 66 ; [fields] ; text ESC \x5c` with a mandatory semicolon between the
code `66` and the parameter block.  The TypeScript general encoder violates
this at the claim's own examples: the all-default ParamSet encoding "hi"
yields `ESC]66;hi` (a single semicolon before the payload, not two), and
scale=2 encoding "Hello" yields `ESC]66s=2;Hello` (no semicolon at all
between `66` and the parameter block). -/
theorem textSizing_code_separator_missing :
    textSizing {} "hi" = "\x1b]66;hi\x1b\\" ∧
    textSizing {} "hi" ≠ "\x1b]66;;hi\x1b\\" ∧
    textSizing { scale := 2 } "Hello" = "\x1b]66s=2;Hello\x1b\\" ∧
    textSizing { scale := 2 } "Hello" ≠ "\x1b]66;s=2;Hello\x1b\\" := by
  exact ⟨by decide, by decide, by decide, by decide⟩

/-- Claim C2: the claim asserts that each convenience encoder produces
byte-identical output to the general encoder with only the corresponding
fields set.  It fails for every variant: the convenience encoders emit the
semicolon after the code `66`, the general encoder omits it. -/
theorem convenience_encoders_differ_from_general :
    scaledText 2 "x" = "\x1b]66;s=2;x\x1b\\" ∧
    textSizing { scale := 2 } "x" = "\x1b]66s=2;x\x1b\\" ∧
    scaledText 2 "x" ≠ textSizing { scale := 2 } "x" ∧
    fractionalText 1 2 "x" ≠
      textSizing { numerator := 1, denominator := 2 } "x" ∧
    explicitWidth 1 "x" ≠ textSizing { width := 1 } "x" ∧
    textSizingWithWidth 2 3 "x" ≠
      textSizing { scale := 2, width := 3 } "x" := by
  exact ⟨by decide, by decide, by decide, by decide, by decide, by decide⟩

/-- Claim C7: the capability probe query byte strings are bit-exact — the
width probe is `ESC]66;w=1; ESC \x5c` (width=1 applied to a single space), the
scale probe is `ESC]66;s=2; ESC \x5c` (scale=2 applied to a single space), and
the position-report request is `ESC[6n`.  Moreover each probe string is
exactly what the Zig encoders produce for those parameters applied to a
single space. -/
theorem probe_query_bytes :
    Zig.explicitWidthQuery = "\x1b]66;w=1; \x1b\\" ∧
    Zig.scaledTextQuery = "\x1b]66;s=2; \x1b\\" ∧
    Zig.cursorPositionRequest = "\x1b[6n" ∧
    Zig.explicitWidthQuery = Zig.textSizingOutput { width := 1 } " " ∧
    Zig.scaledTextQuery = Zig.textSizingOutput { scale := 2 } " " ∧
    Zig.explicitWidthQuery = Zig.explicitWidthOutput 1 " " ∧
    Zig.scaledTextQuery = Zig.scaledTextOutput 2 " " := by
  exact ⟨rfl, rfl, rfl, by decide, by decide, by decide, by decide⟩

/-- Claim C9: the claim asserts the TypeScript general encoder and the Zig
general encoder produce identical bytes for every ParamSet.  They differ
whenever any field contributes: at scale=2 with text "Hello" the TypeScript
encoder omits the semicolon between `66` and the parameter block while the
Zig encoder emits it.  (They do agree on the all-default ParamSet.) -/
theorem ts_zig_general_encoders_differ :
    textSizing { scale := 2 } "Hello" = "\x1b]66s=2;Hello\x1b\\" ∧
    Zig.textSizingOutput { scale := 2 } "Hello" = "\x1b]66;s=2;Hello\x1b\\" ∧
    textSizing { scale := 2 } "Hello" ≠
      Zig.textSizingOutput { scale := 2 } "Hello" ∧
    textSizing {} "hi" = Zig.textSizingOutput {} "hi" := by
  exact ⟨by decide, by decide, by decide, by decide⟩

/-- Claim C10: `fractionalText` emits the pair `n=<numerator>:d=<denominator>`
unconditionally, for every pair of values, and never applies the activity
rule (`numerator > 0 ∧ denominator > numerator`) that the general encoder
uses to suppress the pair: for any values failing that rule the general
encoder's field-group list contains no `n=` group, while `fractionalText`
still emits the pair verbatim. -/
theorem fractionalText_unconditional
    (numerator denominator : Nat) (text : String) :
    fractionalText numerator denominator text =
      "\x1b]66;n=" ++ toString numerator ++ ":d=" ++ toString denominator ++
        ";" ++ text ++ "\x1b\\" ∧
    ((numerator = 0 ∨ denominator ≤ numerator) →
      ∀ x, ("n=" ++ x) ∉ textSizingParts
        { numerator := numerator, denominator := denominator }) := by
  constructor
  · rfl
  · intro h x hx
    rw [mem_textSizingParts_iff] at hx
    rcases hx with ⟨_, heq⟩ | ⟨_, heq⟩ | ⟨hc, _⟩ | ⟨_, heq⟩ | ⟨_, heq⟩
    · exact absurd heq (head_ne_aux (by decide) rfl rfl)
    · exact absurd heq (head_ne_aux (by decide) rfl rfl)
    · simp only [] at hc
      omega
    · exact absurd heq (head_ne_aux (by decide) rfl rfl)
    · exact absurd heq (head_ne_aux (by decide) rfl rfl)

/-- Witness for C10 at numerator=0, denominator=0 and payload "x". -/
theorem fractionalText_unconditional_witness :
    fractionalText 0 0 "x" = "\x1b]66;n=0:d=0;x\x1b\\" ∧
    ("n=" ++ "0:d=0") ∉ textSizingParts { numerator := 0, denominator := 0 } := by
  have h := fractionalText_unconditional 0 0 "x"
  exact ⟨h.1, h.2 (Or.inl rfl) "0:d=0"⟩

/-- Claim C3: for every ParamSet with all fields in their valid ranges, a
parameter's field group appears in the general encoder's field-group list
iff the parameter differs from its default: `s=<scale>` iff scale > 1,
`w=<width>` iff width > 0, the fractional pair iff
numerator > 0 ∧ denominator > numerator, a `v=` group iff the vertical
alignment is not top, and an `h=` group iff the horizontal alignment is not
left. -/
theorem contributes_iff_nondefault (p : TextSizingParams)
    (hs1 : 1 ≤ p.scale) (hs2 : p.scale ≤ 7) (hw : p.width ≤ 7)
    (hn : p.numerator ≤ 15) (hd : p.denominator ≤ 15) :
    (("s=" ++ toString p.scale) ∈ textSizingParts p ↔ 1 < p.scale) ∧
    (("w=" ++ toString p.width) ∈ textSizingParts p ↔ 0 < p.width) ∧
    (("n=" ++ toString p.numerator ++ ":d=" ++ toString p.denominator) ∈
        textSizingParts p ↔
      (0 < p.numerator ∧ p.denominator > p.numerator)) ∧
    ((∃ x, ("v=" ++ x) ∈ textSizingParts p) ↔
      p.verticalAlign ≠ VerticalAlign.top) ∧
    ((∃ x, ("h=" ++ x) ∈ textSizingParts p) ↔
      p.horizontalAlign ≠ HorizontalAlign.left) := by
  refine ⟨?_, ?_, ?_, ?_, ?_⟩
  · constructor
    · rw [mem_textSizingParts_iff]
      rintro (⟨⟨_, h⟩, _⟩ | ⟨_, heq⟩ | ⟨_, heq⟩ | ⟨_, heq⟩ | ⟨_, heq⟩)
      · exact h
      · exact absurd heq (head_ne_aux (by decide) rfl rfl)
      · exact absurd heq (head_ne_aux (by decide) rfl rfl)
      · exact absurd heq (head_ne_aux (by decide) rfl rfl)
      · exact absurd heq (head_ne_aux (by decide) rfl rfl)
    · intro h
      rw [mem_textSizingParts_iff]
      exact Or.inl ⟨⟨by omega, h⟩, rfl⟩
  · constructor
    · rw [mem_textSizingParts_iff]
      rintro (⟨_, heq⟩ | ⟨⟨_, h⟩, _⟩ | ⟨_, heq⟩ | ⟨_, heq⟩ | ⟨_, heq⟩)
      · exact absurd heq (head_ne_aux (by decide) rfl rfl)
      · exact h
      · exact absurd heq (head_ne_aux (by decide) rfl rfl)
      · exact absurd heq (head_ne_aux (by decide) rfl rfl)
      · exact absurd heq (head_ne_aux (by decide) rfl rfl)
    · intro h
      rw [mem_textSizingParts_iff]
      exact Or.inr (Or.inl ⟨⟨by omega, h⟩, rfl⟩)
  · constructor
    · rw [mem_textSizingParts_iff]
      rintro (⟨_, heq⟩ | ⟨_, heq⟩ | ⟨⟨h1, h2, h3⟩, _⟩ | ⟨_, heq⟩ | ⟨_, heq⟩)
      · exact absurd heq (head_ne_aux (by decide) rfl rfl)
      · exact absurd heq (head_ne_aux (by decide) rfl rfl)
      · exact ⟨by omega, h3⟩
      · exact absurd heq (head_ne_aux (by decide) rfl rfl)
      · exact absurd heq (head_ne_aux (by decide) rfl rfl)
    · intro h
      rw [mem_textSizingParts_iff]
      exact Or.inr (Or.inr (Or.inl ⟨⟨by omega, by omega, h.2⟩, rfl⟩))
  · constructor
    · rintro ⟨x, hx⟩
      rw [mem_textSizingParts_iff] at hx
      rcases hx with ⟨_, heq⟩ | ⟨_, heq⟩ | ⟨_, heq⟩ | ⟨hv, _⟩ | ⟨_, heq⟩
      · exact absurd heq (head_ne_aux (by decide) rfl rfl)
      · exact absurd heq (head_ne_aux (by decide) rfl rfl)
      · exact absurd heq (head_ne_aux (by decide) rfl rfl)
      · exact hv
      · exact absurd heq (head_ne_aux (by decide) rfl rfl)
    · intro hv
      refine ⟨toString
        (if p.verticalAlign = VerticalAlign.bottom then 1 else 2), ?_⟩
      rw [mem_textSizingParts_iff]
      exact Or.inr (Or.inr (Or.inr (Or.inl ⟨hv, rfl⟩)))
  · constructor
    · rintro ⟨x, hx⟩
      rw [mem_textSizingParts_iff] at hx
      rcases hx with ⟨_, heq⟩ | ⟨_, heq⟩ | ⟨_, heq⟩ | ⟨_, heq⟩ | ⟨hh, _⟩
      · exact absurd heq (head_ne_aux (by decide) rfl rfl)
      · exact absurd heq (head_ne_aux (by decide) rfl rfl)
      · exact absurd heq (head_ne_aux (by decide) rfl rfl)
      · exact absurd heq (head_ne_aux (by decide) rfl rfl)
      · exact hh
    · intro hh
      refine ⟨toString
        (if p.horizontalAlign = HorizontalAlign.right then 1 else 2), ?_⟩
      rw [mem_textSizingParts_iff]
      exact Or.inr (Or.inr (Or.inr (Or.inr ⟨hh, rfl⟩)))

/-- Witness for C3 at the valid ParamSet with scale=2 and all other fields
default: the scale group is present. -/
theorem contributes_iff_nondefault_witness :
    ("s=" ++ toString (2 : Nat)) ∈ textSizingParts { scale := 2 } :=
  ((contributes_iff_nondefault { scale := 2 } (by decide) (by decide)
    (by decide) (by decide) (by decide)).1).mpr (by decide)

/-- Claim C4: the fractional pair is atomic in the general encoder.  For
every ParamSet whose fractional contributes condition fails
(numerator = 0 or denominator ≤ numerator), the output equals the output
with both fractional fields set to their defaults, and no `n=` field group
occurs in the field-group list, even if one of the two values is
individually nonzero. -/
theorem fractional_pair_atomic (p : TextSizingParams) (text : String)
    (h : p.numerator = 0 ∨ p.denominator ≤ p.numerator) :
    textSizing p text =
      textSizing { p with numerator := 0, denominator := 0 } text ∧
    ∀ x, ("n=" ++ x) ∉ textSizingParts p := by
  have hc : ¬(p.numerator ≠ 0 ∧ p.denominator ≠ 0 ∧
      p.denominator > p.numerator) := by omega
  have hparts : textSizingParts p =
      textSizingParts { p with numerator := 0, denominator := 0 } := by
    simp [textSizingParts, hc]
  constructor
  · simp [textSizing, hparts]
  · intro x hx
    rw [mem_textSizingParts_iff] at hx
    rcases hx with ⟨_, heq⟩ | ⟨_, heq⟩ | ⟨hcc, _⟩ | ⟨_, heq⟩ | ⟨_, heq⟩
    · exact absurd heq (head_ne_aux (by decide) rfl rfl)
    · exact absurd heq (head_ne_aux (by decide) rfl rfl)
    · exact hc hcc
    · exact absurd heq (head_ne_aux (by decide) rfl rfl)
    · exact absurd heq (head_ne_aux (by decide) rfl rfl)

/-- Witness for C4 at numerator=3, denominator=2 (denominator not greater
than numerator): the encoding equals the all-default-fractional encoding
and the fractional group is absent. -/
theorem fractional_pair_atomic_witness :
    textSizing { numerator := 3, denominator := 2 } "x" =
      textSizing {} "x" ∧
    ("n=" ++ "3:d=2") ∉ textSizingParts { numerator := 3, denominator := 2 } := by
  have h := fractional_pair_atomic { numerator := 3, denominator := 2 } "x"
    (Or.inr (by decide))
  exact ⟨h.1, h.2 "3:d=2"⟩

/-- Claim C5: the field groups emitted by the general encoder always appear
in the fixed order scale, width, fractional pair, vertical alignment,
horizontal alignment (the field-group list is a sublist of the full ordered
group list), and whenever at least one field contributes the output is the
introducer followed by the colon-joined single parameter block, the
semicolon, the payload and the terminator. -/
theorem field_groups_fixed_order (p : TextSizingParams) (text : String) :
    (textSizingParts p).Sublist
      ["s=" ++ toString p.scale, "w=" ++ toString p.width,
        "n=" ++ toString p.numerator ++ ":d=" ++ toString p.denominator,
        "v=" ++ toString
          (if p.verticalAlign = VerticalAlign.bottom then 1 else 2),
        "h=" ++ toString
          (if p.horizontalAlign = HorizontalAlign.right then 1 else 2)] ∧
    (textSizingParts p ≠ [] →
      textSizing p text =
        "\x1b]66" ++ (String.intercalate ":" (textSizingParts p) ++ ";") ++
          text ++ "\x1b\\") := by
  constructor
  · unfold textSizingParts
    exact (((((sublist_ite_singleton _ _).append
      (sublist_ite_singleton _ _)).append
        (sublist_ite_singleton _ _)).append
          (sublist_ite_singleton _ _)).append
            (sublist_ite_singleton _ _))
  · intro h
    have hlen : (textSizingParts p).length > 0 := List.length_pos.mpr h
    simp only [textSizing]
    rw [if_pos hlen]

/-- Witness for C5 at a ParamSet with every field non-default: the exact
output exhibits the fixed order s, w, n:d, v, h joined by colons. -/
theorem field_groups_fixed_order_witness :
    textSizing
      { scale := 2, width := 3, numerator := 1, denominator := 2,
        verticalAlign := VerticalAlign.bottom,
        horizontalAlign := HorizontalAlign.right } "X" =
      "\x1b]66s=2:w=3:n=1:d=2:v=1:h=1;X\x1b\\" := by
  have h := (field_groups_fixed_order
    { scale := 2, width := 3, numerator := 1, denominator := 2,
      verticalAlign := VerticalAlign.bottom,
      horizontalAlign := HorizontalAlign.right } "X").2 (by decide)
  exact h.trans (by decide)

/-- Claim C6: alignment fields are encoded with fixed integer codes,
irrespective of the other fields: vertical top emits no `v=` group, bottom
emits `v=1`, center emits `v=2`; horizontal left emits no `h=` group, right
emits `h=1`, center emits `h=2`. -/
theorem alignment_wire_codes (p : TextSizingParams) :
    ("v=1" ∈ textSizingParts p ↔ p.verticalAlign = VerticalAlign.bottom) ∧
    ("v=2" ∈ textSizingParts p ↔ p.verticalAlign = VerticalAlign.center) ∧
    (p.verticalAlign = VerticalAlign.top →
      ∀ x, ("v=" ++ x) ∉ textSizingParts p) ∧
    ("h=1" ∈ textSizingParts p ↔ p.horizontalAlign = HorizontalAlign.right) ∧
    ("h=2" ∈ textSizingParts p ↔ p.horizontalAlign = HorizontalAlign.center) ∧
    (p.horizontalAlign = HorizontalAlign.left →
      ∀ x, ("h=" ++ x) ∉ textSizingParts p) := by
  refine ⟨?_, ?_, ?_, ?_, ?_, ?_⟩
  · constructor
    · rw [mem_textSizingParts_iff]
      rintro (⟨_, heq⟩ | ⟨_, heq⟩ | ⟨_, heq⟩ | ⟨hv, heq⟩ | ⟨_, heq⟩)
      · exact absurd heq (head_ne_aux (by decide) rfl rfl)
      · exact absurd heq (head_ne_aux (by decide) rfl rfl)
      · exact absurd heq (head_ne_aux (by decide) rfl rfl)
      · cases hva : p.verticalAlign
        · exact absurd hva hv
        · rfl
        · rw [hva] at heq
          exact absurd heq (by decide)
      · exact absurd heq (head_ne_aux (by decide) rfl rfl)
    · intro hb
      rw [mem_textSizingParts_iff]
      refine Or.inr (Or.inr (Or.inr (Or.inl ⟨?_, ?_⟩)))
      · rw [hb]
        decide
      · rw [hb]
        decide
  · constructor
    · rw [mem_textSizingParts_iff]
      rintro (⟨_, heq⟩ | ⟨_, heq⟩ | ⟨_, heq⟩ | ⟨hv, heq⟩ | ⟨_, heq⟩)
      · exact absurd heq (head_ne_aux (by decide) rfl rfl)
      · exact absurd heq (head_ne_aux (by decide) rfl rfl)
      · exact absurd heq (head_ne_aux (by decide) rfl rfl)
      · cases hva : p.verticalAlign
        · exact absurd hva hv
        · rw [hva] at heq
          exact absurd heq (by decide)
        · rfl
      · exact absurd heq (head_ne_aux (by decide) rfl rfl)
    · intro hb
      rw [mem_textSizingParts_iff]
      refine Or.inr (Or.inr (Or.inr (Or.inl ⟨?_, ?_⟩)))
      · rw [hb]
        decide
      · rw [hb]
        decide
  · intro ht x hx
    rw [mem_textSizingParts_iff] at hx
    rcases hx with ⟨_, heq⟩ | ⟨_, heq⟩ | ⟨_, heq⟩ | ⟨hv, _⟩ | ⟨_, heq⟩
    · exact absurd heq (head_ne_aux (by decide) rfl rfl)
    · exact absurd heq (head_ne_aux (by decide) rfl rfl)
    · exact absurd heq (head_ne_aux (by decide) rfl rfl)
    · exact hv ht
    · exact absurd heq (head_ne_aux (by decide) rfl rfl)
  · constructor
    · rw [mem_textSizingParts_iff]
      rintro (⟨_, heq⟩ | ⟨_, heq⟩ | ⟨_, heq⟩ | ⟨_, heq⟩ | ⟨hh, heq⟩)
      · exact absurd heq (head_ne_aux (by decide) rfl rfl)
      · exact absurd heq (head_ne_aux (by decide) rfl rfl)
      · exact absurd heq (head_ne_aux (by decide) rfl rfl)
      · exact absurd heq (head_ne_aux (by decide) rfl rfl)
      · cases hha : p.horizontalAlign
        · exact absurd hha hh
        · rfl
        · rw [hha] at heq
          exact absurd heq (by decide)
    · intro hb
      rw [mem_textSizingParts_iff]
      refine Or.inr (Or.inr (Or.inr (Or.inr ⟨?_, ?_⟩)))
      · rw [hb]
        decide
      · rw [hb]
        decide
  · constructor
    · rw [mem_textSizingParts_iff]
      rintro (⟨_, heq⟩ | ⟨_, heq⟩ | ⟨_, heq⟩ | ⟨_, heq⟩ | ⟨hh, heq⟩)
      · exact absurd heq (head_ne_aux (by decide) rfl rfl)
      · exact absurd heq (head_ne_aux (by decide) rfl rfl)
      · exact absurd heq (head_ne_aux (by decide) rfl rfl)
      · exact absurd heq (head_ne_aux (by decide) rfl rfl)
      · cases hha : p.horizontalAlign
        · exact absurd hha hh
        · rw [hha] at heq
          exact absurd heq (by decide)
        · rfl
    · intro hb
      rw [mem_textSizingParts_iff]
      refine Or.inr (Or.inr (Or.inr (Or.inr ⟨?_, ?_⟩)))
      · rw [hb]
        decide
      · rw [hb]
        decide
  · intro ht x hx
    rw [mem_textSizingParts_iff] at hx
    rcases hx with ⟨_, heq⟩ | ⟨_, heq⟩ | ⟨_, heq⟩ | ⟨_, heq⟩ | ⟨hh, _⟩
    · exact absurd heq (head_ne_aux (by decide) rfl rfl)
    · exact absurd heq (head_ne_aux (by decide) rfl rfl)
    · exact absurd heq (head_ne_aux (by decide) rfl rfl)
    · exact absurd heq (head_ne_aux (by decide) rfl rfl)
    · exact hh ht

/-- Witness for C6: the all-default ParamSet (top alignment) emits no `v=`
group, and bottom alignment emits exactly `v=1`. -/
theorem alignment_wire_codes_witness :
    ("v=" ++ "0") ∉ textSizingParts ({} : TextSizingParams) ∧
    "v=1" ∈ textSizingParts { verticalAlign := VerticalAlign.bottom } := by
  constructor
  · exact (alignment_wire_codes {}).2.2.1 rfl "0"
  · exact ((alignment_wire_codes
      { verticalAlign := VerticalAlign.bottom }).1).mpr rfl

/-- Claim C8: the claim asserts that out-of-range parameter values are
either always clamped to the nearest valid bound or always rejected, and
that no raw invalid value is ever serialized.  The encoders do neither:
scale=99 (valid range 1-7) is serialized verbatim as `s=99` by both the
convenience encoder and the general encoder, and the output differs from
the clamped-to-7 output, so no clamping occurs and nothing is rejected. -/
theorem out_of_range_scale_serialized_raw :
    scaledText 99 "x" = "\x1b]66;s=99;x\x1b\\" ∧
    textSizing { scale := 99 } "x" = "\x1b]66s=99;x\x1b\\" ∧
    scaledText 99 "x" ≠ scaledText 7 "x" ∧
    textSizing { scale := 99 } "x" ≠ textSizing { scale := 7 } "x" := by
  exact ⟨by decide, by decide, by decide, by decide⟩

/-- Amended C8: the encoders apply no range-validation policy at all — for
any ParamSet whose scale exceeds the documented bound 7 the raw value is
still serialized verbatim: the group `s=<scale>` is in the general
encoder's field-group list and the convenience encoder emits it verbatim. -/
theorem encoders_serialize_raw_values (p : TextSizingParams) (text : String)
    (h : 7 < p.scale) :
    ("s=" ++ toString p.scale) ∈ textSizingParts p ∧
    scaledText p.scale text =
      "\x1b]66;s=" ++ toString p.scale ++ ";" ++ text ++ "\x1b\\" := by
  constructor
  · rw [mem_textSizingParts_iff]
    exact Or.inl ⟨⟨by omega, by omega⟩, rfl⟩
  · rfl

/-- Witness for the amended C8 at scale=99 and payload "x". -/
theorem encoders_serialize_raw_values_witness :
    ("s=" ++ toString (99 : Nat)) ∈ textSizingParts { scale := 99 } ∧
    scaledText 99 "x" =
      "\x1b]66;s=" ++ toString (99 : Nat) ++ ";" ++ "x" ++ "\x1b\\" :=
  encoders_serialize_raw_values { scale := 99 } "x" (by decide)
